import Mathlib

/-!
Verification development for the cl_egans node-tree simulation engine.

Each definition is a shallow embedding of the corresponding Python
construct in `cl_egans/__init__.py` (or, where noted, of a site in
`cl_egans/spiking/connectivity.py`).  Python 2 integer division is
embedded as floor division (`Int.fdiv` / `Nat` division); Python dicts
holding the root's `constants` mapping are embedded either as
association lists or as functions `String → Option _`, as each claim
needs.
-/

namespace ClEgans

/-! ### Division / realization model

`Simulation.n_divisions` computes
`py.int_div_round_up(n_realizations, n_realizations_per_division_max)`.
-/

/-- Modelled from the spec: the helper `py.int_div_round_up` comes from the
external `cypy` library (not under the sources); per the spec the division
count is `ceil(n_realizations / n_realizations_per_division_max)`. -/
def int_div_round_up (a b : Nat) : Nat := (a + b - 1) / b

/-- `Simulation.n_divisions`. -/
def n_divisions (n_realizations n_max : Nat) : Nat :=
  int_div_round_up n_realizations n_max

/-- `realization_start = numpy.int32(division_num * max_realizations)`
from the division loop of `Simulation.run`. -/
def division_realization_start (n_max division_num : Nat) : Nat :=
  division_num * n_max

/-- The `n_realizations` value stored into the `TimestepInfo` of one division
by `Simulation.run`:

    n_realizations = realization_start + max_realizations
    if n_realizations > total_realizations:
        n_realizations = total_realizations - realization_start
-/
def division_n_realizations (total n_max division_num : Nat) : Int :=
  let start : Int := division_num * n_max
  let n : Int := start + n_max
  if n > total then total - start else n

/-- The sequence of `TimestepInfo.n_realizations` values over all divisions
of one `Simulation.run` call. -/
def divisionRealizationCounts (total n_max : Nat) : List Int :=
  (List.range (n_divisions total n_max)).map (division_n_realizations total n_max)

/-! ### Model offsets (`Simulation._model_offsets`, `n_elms_per_realization`) -/

/-- The generator body of `Simulation._model_offsets`: yield the running
offset before adding each model's `count`. -/
def modelOffsetsAux (offset : Nat) : List Nat → List Nat
  | [] => []
  | c :: rest => offset :: modelOffsetsAux (offset + c) rest

/-- `Simulation.model_offsets`, as a function of the models' `count`s in
insertion order. -/
def model_offsets (counts : List Nat) : List Nat :=
  modelOffsetsAux 0 counts

/-- `Simulation.n_elms_per_realization`: the sum of all model counts. -/
def n_elms_per_realization (counts : List Nat) : Nat := counts.sum

/-! ### `ConstrainedProbe` index/time ranges -/

/-- `ConstrainedProbe.n_elms` as the source computes it:
`int((idx_range[1] - idx_range[0]/idx_range[2]))` — the subtraction is NOT
parenthesized, so only `idx_start` is divided by `idx_step` (Python 2 floor
division on ints). -/
def n_elms (idx_start idx_stop idx_step : Int) : Int :=
  idx_stop - Int.fdiv idx_start idx_step

/-- Modelled from the spec: the formula documented in the docstring of
`ConstrainedProbe.n_elms`, `int((idx_stop - idx_start)/idx_step)`. -/
def n_elms_documented (idx_start idx_stop idx_step : Int) : Int :=
  Int.fdiv (idx_stop - idx_start) idx_step

/-- `ConstrainedProbe.total_n_timesteps`: `int((t_stop - t_start)/t_step)`. -/
def total_n_timesteps (t_start t_stop t_step : Int) : Int :=
  Int.fdiv (t_stop - t_start) t_step

/-! ### `PerElementProbe` buffering -/

/-- `PerElementProbe.timesteps_elapsed`: `(timestep - t_start)/t_step + 1`. -/
def timesteps_elapsed (t_start t_step timestep : Int) : Int :=
  Int.fdiv (timestep - t_start) t_step + 1

/-- One `PerElementProbe.on_timestep_complete` call: yields the
`timesteps_elapsed` value passed to the fired `on_buffer_full` hook, when the
hook fires. -/
def on_timestep_complete (t_start t_stop t_step buffer_timepoints timestep : Int) :
    Option Int :=
  if timestep < t_stop then
    let e := timesteps_elapsed t_start t_step timestep
    if 0 < e ∧ e % buffer_timepoints = 0 then some e else none
  else none

/-- The `timesteps_elapsed` values at which `on_buffer_full` fires across the
timesteps `0, 1, …, n_timesteps - 1` of one division of `Simulation.run`.
The probe's handler reads only `timestep_info.timestep`; the division number
is carried to mirror the loop structure but is unused by the handler. -/
def divisionBufferFullEvents (division_num : Nat) (n_timesteps : Nat)
    (t_start t_stop t_step buffer_timepoints : Int) : List Int :=
  let _ := division_num
  (List.range n_timesteps).filterMap
    (fun t => on_timestep_complete t_start t_stop t_step buffer_timepoints (Int.ofNat t))

/-- `PerElementProbe._infer_buffer_timepoints` can fail with a Python
`AssertionError` (the `assert total_n_timesteps % buffer_timepoints == 0`)
or with a `ZeroDivisionError` (when `buffer_timepoints` is 0, since Python
`%` by zero raises). -/
inductive InferError
  | assertionError
  | zeroDivisionError
deriving DecidableEq

/-- `PerElementProbe._infer_buffer_timepoints`, run at finalize time: takes
the configured `buffer_timepoints` (possibly `None`) and
`total_n_timesteps`; returns the resulting `buffer_timepoints` together with
whether the wrap-around `% buffer_timepoints` indexing was appended to
`timestep_expr`. -/
def infer_buffer_timepoints (buffer_timepoints : Option Int)
    (total_n : Int) : Except InferError (Int × Bool) :=
  let bt := buffer_timepoints.getD total_n
  if bt = total_n then Except.ok (bt, false)
  else if bt = 0 then Except.error InferError.zeroDivisionError
  else if total_n % bt = 0 then Except.ok (bt, true)
  else Except.error InferError.assertionError

/-! ### Double-buffered kernel launches (`Simulation.run` timestep loop) -/

/-- Which of the two lazily compiled kernels is launched. -/
inductive Kernel
  | even
  | odd
deriving DecidableEq

/-- One kernel launch performed by `Simulation.run`. -/
structure KernelCall where
  kernel : Kernel
  timestep : Nat
  realization_start : Nat
deriving DecidableEq

/-- The kernel launches performed by the timestep loop of one division of
`Simulation.run`: `step_fn_even(timestep, realization_start)` when
`timestep % 2 == 0`, else `step_fn_odd(timestep, realization_start)`, for
`timestep = 0, …, n_timesteps - 1` in order. -/
def divisionKernelCalls (n_timesteps realization_start : Nat) : List KernelCall :=
  (List.range n_timesteps).map fun t =>
    { kernel := if t % 2 = 0 then Kernel.even else Kernel.odd
      timestep := t
      realization_start := realization_start }

/-! ### Simulation lifecycle (`finalize` / `allocate` / `release`) -/

/-- Python values that arise while the root's `constants` dict is walked:
its string keys and the device buffers stored as values (identified here by
a numeric id). -/
inductive PyVal
  | str (s : String)
  | buf (id : Nat)
deriving DecidableEq

/-- `isinstance(x, cl.Buffer)`. -/
def isBufferInstance : PyVal → Bool
  | PyVal.buf _ => true
  | PyVal.str _ => false

/-- Python's `for constant in self.constants` iterates the KEYS of the
dict; each key is a string value. -/
def constantsIterKeys (constants : List (String × PyVal)) : List PyVal :=
  constants.map (fun kv => PyVal.str kv.1)

/-- The ids of the buffers on which `Simulation.on_release` calls
`.release()`: the handler walks `for constant in self.constants` and calls
`constant.release()` when `isinstance(constant, cl.Buffer)`. -/
def on_release_releasedBufferIds (constants : List (String × PyVal)) : List Nat :=
  (constantsIterKeys constants).filterMap fun c =>
    if isBufferInstance c then
      match c with
      | PyVal.buf i => some i
      | PyVal.str _ => none
    else none

/-- `self.ctx.release_all()` sits inside the loop body of
`Simulation.on_release`, so it runs once per key of the constants mapping. -/
def on_release_ctxReleaseAllCalls (constants : List (String × PyVal)) : Nat :=
  (constantsIterKeys constants).length

/-- The buffer ids actually registered among the VALUES of the constants
mapping — what the handler's own comment says gets released. -/
def bufferIdsInConstants (constants : List (String × PyVal)) : List Nat :=
  constants.filterMap fun kv =>
    match kv.2 with
    | PyVal.buf i => some i
    | PyVal.str _ => none

/-- The lifecycle-relevant state of a `Simulation` root node.  `hookLog`
records, in order, the hook-stage names fired by `trigger_staged_hook`.
Modelled from the spec: the dispatcher `trigger_staged_hook` lives in the
external `cypy.cg` library (not under the sources); per the spec it performs
three depth-first traversals with callback names `pre_<name>`, `on_<name>`,
`post_<name>`; the tree modelled here is the root alone. -/
structure SimState where
  n_realizations : Nat
  n_realizations_per_division_max : Nat
  finalized : Bool
  allocated : Bool
  constants : List (String × PyVal)
  hookLog : List String
deriving DecidableEq

/-- Modelled from the spec: `trigger_staged_hook(name)` fires the three
stages of `name` over the (root-only) tree, in order. -/
def triggerStagedHook (s : SimState) (name : String) : SimState :=
  { s with hookLog := s.hookLog ++ ["pre_" ++ name, "on_" ++ name, "post_" ++ name] }

/-- The three `_assert` guards of `Simulation.post_finalize`. -/
def post_finalize_ok (s : SimState) : Bool :=
  decide (0 < s.n_realizations) &&
  decide (0 < s.n_realizations_per_division_max) &&
  decide (s.n_realizations_per_division_max ≤ s.n_realizations)

/-- `Simulation.finalize`: triggers the staged `finalize` hook on first call
(during whose `post` stage `Simulation.post_finalize` may raise
`Error("Assertion failed, cannot continue.")`), then sets `_finalized`; a
no-op once finalized.  Returns the state after the call and the raised
error message, if any. -/
def finalize (s : SimState) : SimState × Option String :=
  if s.finalized then (s, none)
  else
    let s1 := triggerStagedHook s "finalize"
    if post_finalize_ok s1 then ({ s1 with finalized := true }, none)
    else (s1, some "Assertion failed, cannot continue.")

/-- `Simulation.allocate`: finalizes first if needed, then on first call
triggers the staged `allocate` hook and sets `_allocated`. -/
def allocate (s : SimState) : SimState × Option String :=
  let r := if s.finalized then (s, none) else finalize s
  match r with
  | (s1, some e) => (s1, some e)
  | (s1, none) =>
    if s1.allocated then (s1, none)
    else ({ triggerStagedHook s1 "allocate" with allocated := true }, none)

/-- `Simulation.release`: when allocated, triggers the staged `release` hook
and clears `_allocated`; otherwise raises
`Error("Memory was not allocated.")` before any mutation. -/
def release (s : SimState) : SimState × Option String :=
  if s.allocated then
    ({ triggerStagedHook s "release" with allocated := false }, none)
  else (s, some "Memory was not allocated.")

/-! ### `AtomicReceiver.on_prepare_step_fn_odd` (spiking/connectivity.py) -/

/-- Python dict assignment `constants[k] = v` on an identifier-to-buffer
mapping. -/
def updateConst (m : String → Option Nat) (k : String) (v : Nat) :
    String → Option Nat :=
  fun k2 => if k2 = k then some v else m k2

/-- `AtomicReceiver.on_prepare_step_fn_odd`:

    constants[alloc_in.name] = alloc_out.buffer
    constants[alloc_out.name] = alloc_in.buffer

`alloc_in.name`/`alloc_out.name` and `alloc_in.buffer`/`alloc_out.buffer`
are the node's fixed allocation names and lazily-memoized buffers — they
are NOT read back from the mapping. -/
def on_prepare_step_fn_odd (in_name out_name : String) (in_buf out_buf : Nat)
    (constants : String → Option Nat) : String → Option Nat :=
  updateConst (updateConst constants in_name out_buf) out_name in_buf

/-! ### Concrete states used by the closed theorems -/

/-- A concrete unfinalized, unallocated simulation state with a valid
configuration (`n_realizations = 10`, `n_realizations_per_division_max = 3`). -/
def simState0 : SimState :=
  { n_realizations := 10
    n_realizations_per_division_max := 3
    finalized := false
    allocated := false
    constants := []
    hookLog := [] }

/-- A concrete finalized and allocated simulation state whose constants
mapping registers one device buffer (id 7) under the key `"Sim_buf"`. -/
def simStateAllocated : SimState :=
  { n_realizations := 10
    n_realizations_per_division_max := 3
    finalized := true
    allocated := true
    constants := [("Sim_buf", PyVal.buf 7)]
    hookLog := [] }

/-- A concrete identifier-to-buffer mapping with the receiver's `in`/`out`
allocations bound to the distinct buffers 0 and 1, as `Simulation.allocate`
leaves them before any odd-kernel preparation. -/
def constMap0 : String → Option Nat :=
  updateConst (updateConst (fun _ => none) "in" 0) "out" 1

/-! ## Theorems -/

theorem modelOffsetsAux_length (counts : List Nat) :
    ∀ offset, (modelOffsetsAux offset counts).length = counts.length := by
  induction counts with
  | nil => intro offset; rfl
  | cons c rest ih =>
    intro offset
    simp [modelOffsetsAux, ih]

theorem modelOffsetsAux_getElem (counts : List Nat) :
    ∀ (offset i : Nat) (h : i < (modelOffsetsAux offset counts).length),
      (modelOffsetsAux offset counts).get ⟨i, h⟩ = offset + (counts.take i).sum := by
  induction counts with
  | nil =>
    intro offset i h
    simp [modelOffsetsAux] at h
  | cons c rest ih =>
    intro offset i h
    cases i with
    | zero => simp [modelOffsetsAux]
    | succ j =>
      have hj : j < (modelOffsetsAux (offset + c) rest).length := by
        simpa [modelOffsetsAux] using h
      have := ih (offset + c) j hj
      simpa [modelOffsetsAux, List.sum_cons, Nat.add_assoc] using this

theorem model_offsets_length (counts : List Nat) :
    (model_offsets counts).length = counts.length :=
  modelOffsetsAux_length counts 0

theorem model_offsets_getElem (counts : List Nat) (i : Nat)
    (h : i < (model_offsets counts).length) :
    (model_offsets counts).get ⟨i, h⟩ = (counts.take i).sum := by
  simpa [model_offsets] using modelOffsetsAux_getElem counts 0 i h

/-- **C1** (code bug evidence).  With `n_realizations = 10` and
`n_realizations_per_division_max = 3`, `Simulation.run` executes
`n_divisions = ceil(10/3) = 4` divisions, but the `TimestepInfo` records
carry `n_realizations` values `[3, 6, 9, 1]`, not the claimed
`[3, 3, 3, 1]`: the loop sets `n_realizations = realization_start +
max_realizations` (an end index, not a count) and converts to a count only
when clamping the final division. -/
theorem run_division_counts_bug :
    n_divisions 10 3 = 4 ∧
    divisionRealizationCounts 10 3 = [3, 6, 9, 1] ∧
    divisionRealizationCounts 10 3 ≠ [3, 3, 3, 1] := by
  refine ⟨rfl, by decide, by decide⟩

/-- **C4**.  For any nonempty sequence of models with positive counts,
`model_offsets` starts at 0, is strictly increasing, satisfies
`offsets[i] + counts[i] = offsets[i+1]` for consecutive pairs, and its last
entry plus the last count equals `n_elms_per_realization`. -/
theorem model_offsets_invariants (counts : List Nat)
    (hne : counts ≠ []) (hpos : ∀ c ∈ counts, 0 < c) :
    (model_offsets counts).length = counts.length ∧
    (model_offsets counts).head? = some 0 ∧
    List.Pairwise (· < ·) (model_offsets counts) ∧
    (∀ i, i + 1 < counts.length →
      (model_offsets counts)[i]! + counts[i]! = (model_offsets counts)[i + 1]!) ∧
    (model_offsets counts)[counts.length - 1]! + counts[counts.length - 1]! =
      n_elms_per_realization counts := by
  have hlen := model_offsets_length counts
  have hget : ∀ (i : Nat) (h : i < (model_offsets counts).length),
      (model_offsets counts).get ⟨i, h⟩ = (counts.take i).sum :=
    model_offsets_getElem counts
  have hlenpos : 0 < counts.length := List.length_pos.mpr hne
  refine ⟨hlen, ?_, ?_, ?_, ?_⟩
  · -- head? = some 0
    cases counts with
    | nil => exact absurd rfl hne
    | cons c rest => simp [model_offsets, modelOffsetsAux]
  · -- strictly increasing
    rw [← List.chain'_iff_pairwise]
    rw [List.chain'_iff_get]
    intro i hi
    rw [hget i (by omega), hget (i + 1) (by omega)]
    have hilt : i < counts.length := by omega
    have hsum := List.sum_take_succ counts i hilt
    have hcpos : 0 < counts[i] := hpos _ (List.getElem_mem hilt)
    omega
  · -- adjacent-sum relation
    intro i hi
    have h1 : i < (model_offsets counts).length := by omega
    have h2 : i + 1 < (model_offsets counts).length := by omega
    have h3 : i < counts.length := by omega
    rw [getElem!_pos (model_offsets counts) i h1,
        getElem!_pos (model_offsets counts) (i + 1) h2,
        getElem!_pos counts i h3]
    have e1 : (model_offsets counts)[i] = (counts.take i).sum := hget i h1
    have e2 : (model_offsets counts)[i + 1] = (counts.take (i + 1)).sum :=
      hget (i + 1) h2
    rw [e1, e2, List.sum_take_succ counts i h3]
  · -- last offset + last count = total
    have h3 : counts.length - 1 < counts.length := by omega
    have h1 : counts.length - 1 < (model_offsets counts).length := by omega
    rw [getElem!_pos (model_offsets counts) (counts.length - 1) h1,
        getElem!_pos counts (counts.length - 1) h3]
    have e1 : (model_offsets counts)[counts.length - 1] =
        (counts.take (counts.length - 1)).sum := hget (counts.length - 1) h1
    rw [e1]
    have := List.sum_take_succ counts (counts.length - 1) h3
    have hsucc : counts.length - 1 + 1 = counts.length := by omega
    rw [hsucc] at this
    rw [List.take_length] at this
    rw [n_elms_per_realization, ← this]

/-- Witness for **C4** at `counts = [2, 3, 1]`. -/
theorem model_offsets_invariants_witness :
    (model_offsets [2, 3, 1]).head? = some 0 ∧
    List.Pairwise (· < ·) (model_offsets [2, 3, 1]) ∧
    (model_offsets [2, 3, 1])[2]! + [2, 3, 1][2]! =
      n_elms_per_realization [2, 3, 1] := by
  have h := model_offsets_invariants [2, 3, 1] (by decide) (by decide)
  exact ⟨h.2.1, h.2.2.1, h.2.2.2.2⟩

/-- **C3** (counterexample).  The claim asserts the source formula and the
documented formula agree whenever `idx_start == 0` or `idx_step == 1`; but
at the finalized range `(0, 10, 2)` the source computes
`10 - 0/2 = 10` while the documented formula gives `(10 - 0)/2 = 5`. -/
theorem n_elms_agreement_counterexample :
    n_elms 0 10 2 = 10 ∧ n_elms_documented 0 10 2 = 5 ∧
    n_elms 0 10 2 ≠ n_elms_documented 0 10 2 :=
  ⟨by decide, by decide, by decide⟩

/-- **C3** (amended).  `ConstrainedProbe.n_elms` is computed as
`int((idx_stop - idx_start/idx_step))` with the subtraction unparenthesized
(for nonzero `idx_step`; at `idx_step = 0` Python raises); for some
finalized `idx_range` — e.g. `idx_start = 1, idx_stop = 10, idx_step = 2` —
its value differs from the documented `int((idx_stop - idx_start)/idx_step)`,
and the two agree whenever `idx_step == 1`. -/
theorem n_elms_formula_amended (start stop step : Int) (hstep : step ≠ 0) :
    n_elms start stop step = stop - Int.fdiv start step ∧
    (step = 1 → n_elms start stop step = n_elms_documented start stop step) ∧
    n_elms 1 10 2 ≠ n_elms_documented 1 10 2 := by
  refine ⟨rfl, ?_, by decide⟩
  intro h1
  subst h1
  simp [n_elms, n_elms_documented, Int.fdiv_one]

/-- Witness for **C3** (amended) at `idx_range = (3, 10, 1)`. -/
theorem n_elms_formula_amended_witness :
    n_elms 3 10 1 = 10 - Int.fdiv 3 1 ∧
    n_elms 3 10 1 = n_elms_documented 3 10 1 := by
  have h := n_elms_formula_amended 3 10 1 (by decide)
  exact ⟨h.1, h.2.1 rfl⟩

/-- **C5**.  A `PerElementProbe` with `buffer_timepoints = 50` and default
constraint windows (finalized to `t_range = (0, 200, 1)`), in a run with
`n_timesteps = 200`, fires `on_buffer_full` exactly 4 times in each
division, with `timesteps_elapsed` values `50, 100, 150, 200` in that
order. -/
theorem probe_buffer_full_schedule (division_num : Nat) :
    divisionBufferFullEvents division_num 200 0 200 1 50 = [50, 100, 150, 200] ∧
    (divisionBufferFullEvents division_num 200 0 200 1 50).length = 4 :=
  ⟨rfl, rfl⟩

/-- Witness for **C5** at division 0. -/
theorem probe_buffer_full_schedule_witness :
    divisionBufferFullEvents 0 200 0 200 1 50 = [50, 100, 150, 200] :=
  (probe_buffer_full_schedule 0).1

/-- **C6**.  Within each division (whose start is `r`) of a run with
`n_timesteps = 10`, the even-bound kernel is launched exactly at timesteps
`0, 2, 4, 6, 8` and the odd-bound kernel exactly at `1, 3, 5, 7, 9`, every
launch passing `(timestep, realization_start)`, in increasing timestep
order. -/
theorem kernel_parity_schedule (r : Nat) :
    ((divisionKernelCalls 10 r).filter
        (fun c => decide (c.kernel = Kernel.even))).map KernelCall.timestep =
      [0, 2, 4, 6, 8] ∧
    ((divisionKernelCalls 10 r).filter
        (fun c => decide (c.kernel = Kernel.odd))).map KernelCall.timestep =
      [1, 3, 5, 7, 9] ∧
    (divisionKernelCalls 10 r).map KernelCall.timestep =
      [0, 1, 2, 3, 4, 5, 6, 7, 8, 9] ∧
    (divisionKernelCalls 10 r).map KernelCall.realization_start =
      List.replicate 10 r :=
  ⟨rfl, rfl, rfl, rfl⟩

/-- Witness for **C6** at `realization_start = 3` (division 1 of the 10/3
configuration). -/
theorem kernel_parity_schedule_witness :
    ((divisionKernelCalls 10 3).filter
        (fun c => decide (c.kernel = Kernel.even))).map KernelCall.timestep =
      [0, 2, 4, 6, 8] ∧
    (divisionKernelCalls 10 3).map KernelCall.realization_start =
      List.replicate 10 3 :=
  ⟨(kernel_parity_schedule 3).1, (kernel_parity_schedule 3).2.2.2⟩

/-- **C7**.  `finalize()` is idempotent: on a Simulation whose global
invariants hold, the first call triggers the staged finalize hook exactly
once (appending exactly the three stage callbacks to the hook log) and sets
the finalized flag; every subsequent call is a no-op. -/
theorem finalize_idempotent (s : SimState)
    (hf : s.finalized = false)
    (h1 : 0 < s.n_realizations)
    (h2 : 0 < s.n_realizations_per_division_max)
    (h3 : s.n_realizations_per_division_max ≤ s.n_realizations) :
    (finalize s).2 = none ∧
    (finalize s).1.finalized = true ∧
    (finalize s).1.hookLog =
      s.hookLog ++ ["pre_finalize", "on_finalize", "post_finalize"] ∧
    finalize (finalize s).1 = ((finalize s).1, none) := by
  refine ⟨?_, ?_, ?_, ?_⟩ <;>
    simp [finalize, post_finalize_ok, hf, h1, h2, h3, triggerStagedHook]

/-- Witness for **C7** at `simState0`. -/
theorem finalize_idempotent_witness :
    (finalize simState0).2 = none ∧
    (finalize simState0).1.finalized = true ∧
    finalize (finalize simState0).1 = ((finalize simState0).1, none) := by
  have h := finalize_idempotent simState0 rfl (by decide) (by decide) (by decide)
  exact ⟨h.1, h.2.1, h.2.2.2⟩

/-- **C8**.  `release()` on a not-allocated Simulation raises
`Error("Memory was not allocated.")` — a message distinct from the
invariant-violation message — and leaves the state unchanged (still not
allocated, no hook fired); after a successful `release()` the Simulation is
no longer allocated and `allocate()` succeeds again, triggering the staged
allocate hook. -/
theorem release_lifecycle (s : SimState) :
    (s.allocated = false →
      release s = (s, some "Memory was not allocated.") ∧
      ("Memory was not allocated." : String) ≠
        "Assertion failed, cannot continue.") ∧
    (s.allocated = true → s.finalized = true →
      (release s).2 = none ∧
      (release s).1.allocated = false ∧
      (allocate (release s).1).2 = none ∧
      (allocate (release s).1).1.allocated = true ∧
      (allocate (release s).1).1.hookLog =
        (release s).1.hookLog ++ ["pre_allocate", "on_allocate", "post_allocate"]) := by
  constructor
  · intro hna
    exact ⟨by simp [release, hna], by decide⟩
  · intro ha hf
    refine ⟨?_, ?_, ?_, ?_, ?_⟩ <;>
      simp [release, allocate, triggerStagedHook, ha, hf]

/-- Witness for **C8** at `simState0` (not allocated) and
`simStateAllocated` (allocated). -/
theorem release_lifecycle_witness :
    release simState0 = (simState0, some "Memory was not allocated.") ∧
    (release simStateAllocated).2 = none ∧
    (allocate (release simStateAllocated).1).2 = none := by
  have h0 := release_lifecycle simState0
  have h1 := release_lifecycle simStateAllocated
  exact ⟨(h0.1 rfl).1, (h1.2 rfl rfl).1, (h1.2 rfl rfl).2.2.1⟩

/-- **C2** (code bug evidence).  `release()` on an allocated Simulation does
trigger the staged release hook, but the root's default `on_release` handler
iterates the KEYS of the constants dict (`for constant in self.constants`),
so `isinstance(constant, cl.Buffer)` never holds and `release()` is called
on no buffer at all: with buffer 7 registered under `"Sim_buf"`, the handler
releases nothing (while `ctx.release_all()` runs once per key from inside
the loop body). -/
theorem release_hook_buffer_release_bug :
    (release simStateAllocated).2 = none ∧
    (release simStateAllocated).1.hookLog =
      ["pre_release", "on_release", "post_release"] ∧
    on_release_releasedBufferIds simStateAllocated.constants = [] ∧
    bufferIdsInConstants simStateAllocated.constants = [7] ∧
    on_release_ctxReleaseAllCalls simStateAllocated.constants = 1 :=
  ⟨rfl, rfl, rfl, rfl, rfl⟩

/-- **C9** (counterexample).  Applying `AtomicReceiver.on_prepare_step_fn_odd`
twice does NOT restore the original mapping: the hook writes the node's
fixed allocation buffers (not values read back from the mapping), so a
second application repeats the first instead of undoing it.  From
`in ↦ 0, out ↦ 1`, both single and double application leave `in ↦ 1`. -/
theorem prepare_step_fn_odd_not_involution :
    ¬ on_prepare_step_fn_odd "in" "out" 0 1
        (on_prepare_step_fn_odd "in" "out" 0 1 constMap0) = constMap0 := by
  intro h
  have h2 := congrFun h "in"
  simp [on_prepare_step_fn_odd, updateConst, constMap0] at h2

/-- **C9** (amended).  For every constants mapping,
`on_prepare_step_fn_odd` sets the key named after its `in` allocation to the
`out` buffer and the key named after its `out` allocation to the `in`
buffer, leaves every other key unchanged, and applying it twice yields the
same mapping as applying it once (the write is idempotent, not an
involution). -/
theorem prepare_step_fn_odd_frame_idempotent
    (in_name out_name : String) (in_buf out_buf : Nat)
    (m : String → Option Nat) (hne : in_name ≠ out_name) :
    on_prepare_step_fn_odd in_name out_name in_buf out_buf m in_name =
      some out_buf ∧
    on_prepare_step_fn_odd in_name out_name in_buf out_buf m out_name =
      some in_buf ∧
    (∀ k, k ≠ in_name → k ≠ out_name →
      on_prepare_step_fn_odd in_name out_name in_buf out_buf m k = m k) ∧
    on_prepare_step_fn_odd in_name out_name in_buf out_buf
        (on_prepare_step_fn_odd in_name out_name in_buf out_buf m) =
      on_prepare_step_fn_odd in_name out_name in_buf out_buf m := by
  refine ⟨?_, ?_, ?_, ?_⟩
  · simp [on_prepare_step_fn_odd, updateConst, hne]
  · simp [on_prepare_step_fn_odd, updateConst]
  · intro k hk1 hk2
    simp [on_prepare_step_fn_odd, updateConst, hk1, hk2]
  · funext k
    by_cases hk2 : k = out_name
    · subst hk2
      simp [on_prepare_step_fn_odd, updateConst]
    · by_cases hk1 : k = in_name
      · subst hk1
        simp [on_prepare_step_fn_odd, updateConst, hne, hk2]
      · simp [on_prepare_step_fn_odd, updateConst, hk1, hk2]

/-- Witness for **C9** (amended) at the concrete mapping `constMap0`. -/
theorem prepare_step_fn_odd_frame_idempotent_witness :
    on_prepare_step_fn_odd "in" "out" 0 1 constMap0 "in" = some 1 ∧
    on_prepare_step_fn_odd "in" "out" 0 1
        (on_prepare_step_fn_odd "in" "out" 0 1 constMap0) =
      on_prepare_step_fn_odd "in" "out" 0 1 constMap0 := by
  have h := prepare_step_fn_odd_frame_idempotent "in" "out" 0 1 constMap0
    (by decide)
  exact ⟨h.1, h.2.2.2⟩

/-- **C10**.  At finalize time, a `None` `buffer_timepoints` is replaced by
`total_n_timesteps` with no wrap-around indexing added; a configured
positive value that does not evenly divide `total_n_timesteps` makes
finalization fail with an `AssertionError` instead of proceeding. -/
theorem infer_buffer_timepoints_spec (T b : Int) :
    infer_buffer_timepoints none T = Except.ok (T, false) ∧
    (0 < b → ¬ b ∣ T →
      infer_buffer_timepoints (some b) T =
        Except.error InferError.assertionError) := by
  constructor
  · simp [infer_buffer_timepoints]
  · intro hb hnd
    have hbT : b ≠ T := by
      intro h
      exact hnd (h ▸ dvd_rfl)
    have hb0 : b ≠ 0 := by omega
    have hmod : ¬ T % b = 0 := fun h => hnd (Int.dvd_of_emod_eq_zero h)
    simp [infer_buffer_timepoints, hbT, hb0, hmod]

/-- Witness for **C10** at `total_n_timesteps = 200`,
`buffer_timepoints = 3`. -/
theorem infer_buffer_timepoints_spec_witness :
    infer_buffer_timepoints none 200 = Except.ok (200, false) ∧
    infer_buffer_timepoints (some 3) 200 =
      Except.error InferError.assertionError := by
  have h := infer_buffer_timepoints_spec 200 3
  refine ⟨h.1, h.2 (by decide) ?_⟩
  intro hd
  rcases hd with ⟨c, hc⟩
  omega

end ClEgans
